import Mathlib

/-!
Shallow embedding of the Incremental Mailbox Synchronization Engine of the
gmail-client-backend repository (src/email/sync/email_sync.service.ts and the
event listener src/email/listeners, plus the data model of the Email entity).

Remote effects (the Gmail API client, the embedding provider) are modelled as
pure oracle functions passed in as parameters; the TypeORM repository is
modelled as an explicit state record (a list of email rows plus a per-user
cursor table).  Each TypeScript method becomes a Lean function that takes the
state and returns the new state together with its return value and, where the
claims need them, the emitted events and issued remote calls.
-/

namespace GmailSync

/-- One row of the email table (the `Email` entity): remote message id,
thread id, snippet, internal date, subject, sender, owning user and the
optional embedding vector (a numeric vector; only its length matters to the
code, which checks `vector.length === 1536`). -/
structure EmailRec where
  id : String
  threadId : String
  snippet : String
  internalDate : String
  subject : String
  sender : String
  userId : Nat
  embedding : Option (List Int)
deriving DecidableEq, Repr

/-- The persistent state the sync engine touches: the email table and the
per-user `lastHistoryId` cursor table (kept by GmailService on the user row). -/
structure SyncState where
  store : List EmailRec
  cursors : List (Nat × String)
deriving DecidableEq, Repr

/-- `GmailService.getLastHistoryId(userId)`: look up the stored cursor. -/
def getCursor (st : SyncState) (userId : Nat) : Option String :=
  (st.cursors.find? (fun p => decide (p.1 = userId))).map (·.2)

/-- `GmailService.updateLastHistoryId(userId, historyId)`: store the cursor. -/
def setCursor (st : SyncState) (userId : Nat) (historyId : String) : SyncState :=
  { st with cursors := (userId, historyId) :: st.cursors.filter (fun p => decide (p.1 ≠ userId)) }

/-- `emailRepository.save(records)`: upsert by the `(userId, id)` key (the
data-model invariant is that `(userId, id)` is unique per row). -/
def saveBatch (store : List EmailRec) (new : List EmailRec) : List EmailRec :=
  store.filter (fun r => decide (∀ n ∈ new, ¬(n.userId = r.userId ∧ n.id = r.id))) ++ new

/-- `emailRepository.delete({ id: In(ids), userId })`: remove the rows of this
user whose id is in the list. -/
def deleteByIds (store : List EmailRec) (userId : Nat) (ids : List String) : List EmailRec :=
  store.filter (fun r => decide (¬(r.userId = userId ∧ r.id ∈ ids)))

/-- A `gmail_v1.Schema$Message` as it appears in a listing: possibly missing
id and thread id. -/
structure GMessage where
  id : Option String
  threadId : Option String
deriving DecidableEq, Repr

/-- The metadata the code reads from `gmailClient.users.messages.get`:
`detail.data.threadId`, `detail.data.snippet`, `detail.data.internalDate` and
the header list `detail.data.payload.headers`. -/
structure FetchedDetail where
  threadId : Option String
  snippet : Option String
  internalDate : Option String
  headers : List (String × String)
deriving DecidableEq, Repr

/-- `getHeader(headers, name)`: `headers.find(h => h.name === name)?.value || ''`. -/
def getHeader (headers : List (String × String)) (name : String) : String :=
  ((headers.find? (fun h => decide (h.1 = name))).map (·.2)).getD ""

/-- The email row built from a fetched detail inside `processAndSaveBatch` and
`syncEmailsWithDeletion` (thread id taken from the listed message). -/
def rowOfMessage (userId : Nat) (msg : GMessage) (d : FetchedDetail) : EmailRec :=
  { id := msg.id.getD ""
    threadId := msg.threadId.getD ""
    snippet := d.snippet.getD ""
    internalDate := d.internalDate.getD ""
    subject := getHeader d.headers "Subject"
    sender := getHeader d.headers "From"
    userId := userId
    embedding := none }

/-- Result of `processAndSaveBatch`: the new store state, the returned list of
newly persisted ids, and the trace of ids for which a remote
`users.messages.get` call was issued. -/
structure BatchResult where
  state : SyncState
  savedIds : List String
  attemptedIds : List String
deriving DecidableEq, Repr

/-- The pre-existence query of `processAndSaveBatch`:
`find({ where: { id: In(messages.map(m => m.id)) }, select: ['id'] })` —
note: filtered by id only, with no user filter. -/
def batchExistingIds (st : SyncState) (messages : List GMessage) : List String :=
  let idIn : List String := messages.filterMap (·.id)
  (st.store.filter (fun r => decide (r.id ∈ idIn))).map (·.id)

/-- `messagesToFetch`: the listed messages whose id
(`m.id || ''`) is not among the pre-existing ids. -/
def batchMessagesToFetch (st : SyncState) (messages : List GMessage) : List GMessage :=
  messages.filter (fun m => decide ((m.id.getD "") ∉ batchExistingIds st messages))

/-- `validEmails` of `processAndSaveBatch`: the concurrent per-id metadata
fetches with per-id failures mapped to `null` and filtered out. -/
def batchValidEmails (fetch : String → Option FetchedDetail) (st : SyncState)
    (userId : Nat) (messages : List GMessage) : List EmailRec :=
  (batchMessagesToFetch st messages).filterMap (fun m =>
    (fetch (m.id.getD "")).map (fun d => rowOfMessage userId m d))

/-- `EmailSynceService.processAndSaveBatch(userId, messages, gmailClient)`.
The remote metadata fetch is the oracle `fetch` (`none` models a rejected
call, which the code catches per message and maps to `null`). -/
def processAndSaveBatch (fetch : String → Option FetchedDetail) (st : SyncState)
    (userId : Nat) (messages : List GMessage) : BatchResult :=
  if messages.isEmpty then ⟨st, [], []⟩
  else if (batchMessagesToFetch st messages).isEmpty then ⟨st, [], []⟩
  else if (batchValidEmails fetch st userId messages).isEmpty then
    ⟨st, [], (batchMessagesToFetch st messages).map (fun m => m.id.getD "")⟩
  else
    ⟨{ st with store := saveBatch st.store (batchValidEmails fetch st userId messages) },
      (batchValidEmails fetch st userId messages).map (·.id),
      (batchMessagesToFetch st messages).map (fun m => m.id.getD "")⟩

/-- One entry of `record.messagesAdded` / `record.messagesDeleted` in a Gmail
history record: `{ message: { id } }` with a possibly missing id. -/
structure HistoryMsg where
  id : Option String
deriving DecidableEq, Repr

/-- One record of `historyRes.history`. -/
structure HistoryRecord where
  messagesAdded : Option (List HistoryMsg)
  messagesDeleted : Option (List HistoryMsg)
deriving DecidableEq, Repr

/-- The response of `GmailService.getMailboxHistory` as the code reads it:
`history`, `historyId` and `nextPageToken` (all possibly absent; the code is
typed `any` here and checks each field dynamically). -/
structure HistoryRes where
  history : Option (List HistoryRecord)
  historyId : Option String
  nextPageToken : Option String
deriving DecidableEq, Repr

/-- JavaScript truthiness of an optional string: `undefined` and the empty
string are falsy. -/
def truthyOpt (o : Option String) : Option String :=
  match o with
  | some s => if s = "" then none else some s
  | none => none

/-- The added (resp. deleted) ids collected by the loop over history records:
`if (message?.id && typeof message.id === 'string')` keeps exactly the present,
non-empty ids. -/
def collectIds (entries : Option (List HistoryMsg)) : List String :=
  (entries.getD []).filterMap (fun m => truthyOpt m.id)

/-- The email row built from a fetched detail inside `processHistoryRecords`
(thread id taken from `detail.data.threadId || ''`). -/
def rowOfHistoryId (userId : Nat) (emailId : String) (d : FetchedDetail) : EmailRec :=
  { id := emailId
    threadId := d.threadId.getD ""
    snippet := d.snippet.getD ""
    internalDate := d.internalDate.getD ""
    subject := getHeader d.headers "Subject"
    sender := getHeader d.headers "From"
    userId := userId
    embedding := none }

/-- The save block of `processHistoryRecords`: fetch details for the added
ids (per-id failures dropped), re-check which of the fetched ids already
exist (`find({ where: { id: In(...) } })`, again with no user filter) and save
the remainder. -/
def applyHistoryAdds (fetch : String → Option FetchedDetail) (st : SyncState)
    (userId : Nat) (newEmailIds : List String) : SyncState :=
  if newEmailIds.isEmpty then st
  else
    let validEmails : List EmailRec := newEmailIds.filterMap (fun emailId =>
      (fetch emailId).map (fun d => rowOfHistoryId userId emailId d))
    if validEmails.isEmpty then st
    else
      let existingIdSet : List String :=
        (st.store.filter (fun r => decide (r.id ∈ validEmails.map (·.id)))).map (·.id)
      let emailsToSave := validEmails.filter (fun e => decide (e.id ∉ existingIdSet))
      if emailsToSave.isEmpty then st
      else { st with store := saveBatch st.store emailsToSave }

/-- The delete block of `processHistoryRecords`. -/
def applyHistoryDeletes (st : SyncState) (userId : Nat) (deletedEmailIds : List String) : SyncState :=
  if deletedEmailIds.isEmpty then st
  else { st with store := deleteByIds st.store userId deletedEmailIds }

/-- The cursor block of `processHistoryRecords` (and the terminal-page block
of the listener): `if (historyRes.historyId && typeof historyRes.historyId
=== 'string') updateLastHistoryId(userId, historyRes.historyId)`. -/
def applyHistoryCursor (st : SyncState) (userId : Nat) (historyId : Option String) : SyncState :=
  match truthyOpt historyId with
  | some h => setCursor st userId h
  | none => st

/-- Result of `processHistoryRecords`. -/
structure PHResult where
  state : SyncState
  newEmailIds : List String
  deletedEmailIds : List String
deriving DecidableEq, Repr

/-- `EmailSynceService.processHistoryRecords(userId, historyRes)`: parse the
added and deleted ids out of the history records, save the added ones, delete
the deleted ones, and update the cursor whenever the response carries a
history id. -/
def processHistoryRecords (fetch : String → Option FetchedDetail) (st : SyncState)
    (userId : Nat) (historyRes : HistoryRes) : PHResult :=
  let history := historyRes.history.getD []
  let newEmailIds : List String := history.flatMap (fun r => collectIds r.messagesAdded)
  let deletedEmailIds : List String := history.flatMap (fun r => collectIds r.messagesDeleted)
  let st1 := applyHistoryAdds fetch st userId newEmailIds
  let st2 := applyHistoryDeletes st1 userId deletedEmailIds
  let st3 := applyHistoryCursor st2 userId historyRes.historyId
  ⟨st3, newEmailIds, deletedEmailIds⟩

/-- Errors thrown by remote Gmail calls.

Modelled from the spec: `GmailService` (gmail.service.ts is not under src/)
surfaces remote failures to its callers as thrown errors, and the source does
not distinguish the history-id-too-old condition (HistoryExpired) from other
listing errors (spec section 7 and the open question in section 9); the
callers in src/ catch all of them uniformly. -/
inductive GmailError where
  | historyExpired
  | network
  | auth
deriving DecidableEq, Repr

/-- `GmailService.getProfile(userId)` result, as read by the sync code. -/
structure Profile where
  historyId : Option String
deriving DecidableEq, Repr

/-- The response of `gmail.users.messages.list`. -/
structure ListRes where
  messages : List GMessage
  nextPageToken : Option String
deriving DecidableEq, Repr

/-- The remote environment of one sync run: the per-message metadata fetch,
the account profile, the history feed keyed by start history id
(`getMailboxHistory(userId, startHistoryId)`) or by page token
(`getMailboxHistory(userId, undefined, 100, pageToken)`), and the message
listing keyed by page token.  All are oracles for the third-party service. -/
structure GmailEnv where
  fetch : String → Option FetchedDetail
  profile : Profile
  historyFromId : Option String → Except GmailError HistoryRes
  historyFromToken : String → Except GmailError HistoryRes
  listMessages : String → Except GmailError ListRes

/-- `EmailSynceService.syncEmailsWithHistory(userId)`.  With no (truthy)
stored cursor it seeds the cursor from the profile and returns empty change
lists; otherwise it lists history from the cursor (errors propagate to the
caller) and processes the records. -/
def syncEmailsWithHistory (env : GmailEnv) (st : SyncState) (userId : Nat) :
    Except GmailError PHResult :=
  match truthyOpt (getCursor st userId) with
  | none =>
    let lastHistoryId := truthyOpt env.profile.historyId
    let st1 := match lastHistoryId with
      | some h => setCursor st userId h
      | none => st
    .ok ⟨st1, [], []⟩
  | some cursorValue =>
    match env.historyFromId (some cursorValue) with
    | .error e => .error e
    | .ok historyRes => .ok (processHistoryRecords env.fetch st userId historyRes)

/-- `EmailSyncEvent(userId, pageToken?, pageCount = 1, deletedEmailIds?)`. -/
structure EmailSyncEvent where
  userId : Nat
  pageToken : Option String
  pageCount : Nat
  deletedEmailIds : Option (List String)
deriving DecidableEq, Repr

/-- Events emitted by the listener: follow-up sync requests
(`eventEmitter.emit('email.sync', ...)`), embedding requests
(`eventEmitter.emit('email.embedding', ...)`) and client notifications
(`snoozeGateway.notifyNewEmails(...)`). -/
inductive Event where
  | syncReq (userId : Nat) (pageToken : Option String) (pageCount : Nat)
      (deletedEmailIds : Option (List String))
  | embeddingReq (userId : Nat) (emailIds : List String) (batch : Nat)
  | notify (userId : String) (emailIds : List String)
deriving DecidableEq, Repr

/-- Observable outcome of one `handleSyncOldEmails` invocation: the new
persistent state, the events emitted, and the page tokens of the
`users.messages.list` calls it issued. -/
structure HandlerEffects where
  state : SyncState
  events : List Event
  listCalls : List String
deriving DecidableEq, Repr

/-- `MAX_PAGES` of the listener. -/
def MAX_PAGES : Nat := 10

/-- `EmailSyncListener.handleSyncOldEmails(payload)`.  Branch on the page
counter exactly as the source does: 0 runs a fresh history sync, 1 with a
truthy page token processes one further history page, and otherwise the
legacy list-pagination path runs, guarded by `!pageToken || pageCount >
MAX_PAGES`.  Every branch catches its own errors and only logs them. -/
def handleSyncOldEmails (env : GmailEnv) (st : SyncState) (p : EmailSyncEvent) : HandlerEffects :=
  if p.pageCount = 0 then
    match syncEmailsWithHistory env st p.userId with
    | .error _ => ⟨st, [], []⟩
    | .ok r =>
      let allChangedEmailIds := r.newEmailIds ++ r.deletedEmailIds
      let evsNotify := if allChangedEmailIds.isEmpty then []
        else [Event.notify (toString p.userId) allChangedEmailIds]
      let evsEmbedding := if r.newEmailIds.isEmpty then []
        else [Event.embeddingReq p.userId r.newEmailIds 1]
      match env.historyFromId (truthyOpt (getCursor r.state p.userId)) with
      | .error _ => ⟨r.state, evsNotify ++ evsEmbedding, []⟩
      | .ok historyRes =>
        match truthyOpt historyRes.nextPageToken with
        | some tok =>
          ⟨r.state, evsNotify ++ evsEmbedding
            ++ [Event.syncReq p.userId (some tok) 1 (some r.deletedEmailIds)], []⟩
        | none => ⟨r.state, evsNotify ++ evsEmbedding, []⟩
  else if p.pageCount = 1 ∧ (p.pageToken.getD "") ≠ "" then
    match env.historyFromToken (p.pageToken.getD "") with
    | .error _ => ⟨st, [], []⟩
    | .ok historyRes =>
      let r := processHistoryRecords env.fetch st p.userId historyRes
      let allChangedEmailIds :=
        r.newEmailIds ++ (p.deletedEmailIds.getD []) ++ r.deletedEmailIds
      let evsNotify := if allChangedEmailIds.isEmpty then []
        else [Event.notify (toString p.userId) allChangedEmailIds]
      let evsEmbedding := if r.newEmailIds.isEmpty then []
        else [Event.embeddingReq p.userId r.newEmailIds 1]
      match truthyOpt historyRes.nextPageToken with
      | some tok =>
        ⟨r.state, evsNotify ++ evsEmbedding
          ++ [Event.syncReq p.userId (some tok) 1
              (some ((p.deletedEmailIds.getD []) ++ r.deletedEmailIds))], []⟩
      | none =>
        ⟨applyHistoryCursor r.state p.userId historyRes.historyId,
          evsNotify ++ evsEmbedding, []⟩
  else if (p.pageToken.getD "") = "" ∨ p.pageCount > MAX_PAGES then ⟨st, [], []⟩
  else
    match env.listMessages (p.pageToken.getD "") with
    | .error _ => ⟨st, [], [p.pageToken.getD ""]⟩
    | .ok listRes =>
      let b := processAndSaveBatch env.fetch st p.userId listRes.messages
      let evsNotify := if b.savedIds.isEmpty then []
        else [Event.notify (toString p.userId) b.savedIds]
      let evsEmbedding := if b.savedIds.isEmpty then []
        else [Event.embeddingReq p.userId b.savedIds 1]
      let evsSync := match truthyOpt listRes.nextPageToken with
        | some nextTok => [Event.syncReq p.userId (some nextTok) (p.pageCount + 1) none]
        | none => []
      ⟨b.state, evsNotify ++ evsEmbedding ++ evsSync, [p.pageToken.getD ""]⟩

/-- Result of `syncEmailsWithDeletion`. -/
structure SDResult where
  state : SyncState
  newEmailIds : List String
  deletedEmailIds : List String
deriving DecidableEq, Repr

/-- First-occurrence de-duplication: the iteration order of a JavaScript
`Set` built by inserting the elements of the list in order
(`Array.from(new Set(list))`). -/
def setDedup : List String → List String
  | [] => []
  | a :: t => a :: (setDedup t).filter (fun b => decide (b ≠ a))

/-- The ids stored for one user:
`find({ where: { userId }, select: ['id'] })` mapped to ids. -/
def userStoredIds (st : SyncState) (userId : Nat) : List String :=
  (st.store.filter (fun r => decide (r.userId = userId))).map (·.id)

/-- `deletedEmailIds` of `syncEmailsWithDeletion`:
`Array.from(dbEmailIdSet).filter(id => !gmailEmailIdSet.has(id))`.  The gmail
id set only contains the ids present on the listed messages. -/
def sdDeletedIds (st : SyncState) (userId : Nat) (messages : List GMessage) : List String :=
  (setDedup (userStoredIds st userId)).filter
    (fun i => decide (i ∉ messages.filterMap (·.id)))

/-- `validEmails` of `syncEmailsWithDeletion`: the listed messages absent
from this user's rows, fetched with per-id failures dropped. -/
def sdValidEmails (fetch : String → Option FetchedDetail) (st : SyncState)
    (userId : Nat) (messages : List GMessage) : List EmailRec :=
  (messages.filter (fun m => decide ((m.id.getD "") ∉ userStoredIds st userId))).filterMap
    (fun m => (fetch (m.id.getD "")).map (fun d => rowOfMessage userId m d))

/-- The state after the save block of `syncEmailsWithDeletion`. -/
def sdStateAfterSave (fetch : String → Option FetchedDetail) (st : SyncState)
    (userId : Nat) (messages : List GMessage) : SyncState :=
  if (sdValidEmails fetch st userId messages).isEmpty then st
  else { st with store := saveBatch st.store (sdValidEmails fetch st userId messages) }

/-- `EmailSynceService.syncEmailsWithDeletion(userId, messages, gmailClient)`:
diff-mode reconciliation.  The local rows of this user are compared against
the listed remote messages; remote messages absent locally are fetched and
saved, then rows absent from the remote list are deleted. -/
def syncEmailsWithDeletion (fetch : String → Option FetchedDetail) (st : SyncState)
    (userId : Nat) (messages : List GMessage) : SDResult :=
  ⟨if (sdDeletedIds st userId messages).isEmpty then sdStateAfterSave fetch st userId messages
    else { sdStateAfterSave fetch st userId messages with
      store := deleteByIds (sdStateAfterSave fetch st userId messages).store userId
        (sdDeletedIds st userId messages) },
   (sdValidEmails fetch st userId messages).map (·.id),
   sdDeletedIds st userId messages⟩

/-- `BATCH_SIZE` of `generateEmbeddingsForEmails`. -/
def BATCH_SIZE : Nat := 10

/-- `prepareTextForEmbedding(email)`: the text sent to the embedding provider
(subject, sender and snippet; the trimmed template literal of the source). -/
def prepareTextForEmbedding (email : EmailRec) : String :=
  "Subject: " ++ email.subject ++ "\n        From: " ++ email.sender
    ++ "\n        Content: " ++ email.snippet

/-- The batch selected by the query builder of `generateEmbeddingsForEmails`:
rows with no embedding, owned by `userId`, whose id is among `emailIds`,
limited to `BATCH_SIZE`. -/
def embeddingSelection (st : SyncState) (userId : Nat) (emailIds : List String) : List EmailRec :=
  (st.store.filter (fun e =>
    decide (e.embedding = none ∧ e.userId = userId ∧ e.id ∈ emailIds))).take BATCH_SIZE

/-- `updatedEmails` of `generateEmbeddingsForEmails`: one embedding call per
selected row (`none` models a rejected call, caught per email); a vector is
attached only when its length is exactly 1536, otherwise `null`. -/
def embUpdatedRows (embed : String → Option (List Int)) (st : SyncState)
    (userId : Nat) (emailIds : List String) : List (Option EmailRec) :=
  (embeddingSelection st userId emailIds).map (fun email =>
    (embed (prepareTextForEmbedding email)).map (fun vector =>
      { email with embedding := if vector.length = 1536 then some vector else none }))

/-- `validEmails` of `generateEmbeddingsForEmails`:
`updatedEmails.filter((e): e is Email => e !== null && e.embedding !== null)`. -/
def embValidRows (embed : String → Option (List Int)) (st : SyncState)
    (userId : Nat) (emailIds : List String) : List EmailRec :=
  ((embUpdatedRows embed st userId emailIds).filterMap id).filter
    (fun e => decide (e.embedding ≠ none))

/-- The state after the save block of `generateEmbeddingsForEmails`. -/
def embStateAfterSave (embed : String → Option (List Int)) (st : SyncState)
    (userId : Nat) (emailIds : List String) : SyncState :=
  if (embValidRows embed st userId emailIds).isEmpty then st
  else { st with store := saveBatch st.store (embValidRows embed st userId emailIds) }

/-- `EmailSynceService.generateEmbeddingsForEmails(userId, emailIds)`.
Returns the new state and the returned `remainingIds`; note the early
`return []` when the selected batch is empty. -/
def generateEmbeddingsForEmails (embed : String → Option (List Int)) (st : SyncState)
    (userId : Nat) (emailIds : List String) : SyncState × List String :=
  if (embeddingSelection st userId emailIds).isEmpty then (st, [])
  else (embStateAfterSave embed st userId emailIds,
    emailIds.filter (fun i => decide (i ∉ (embeddingSelection st userId emailIds).map (·.id))))

/-! Concrete fixtures used by the witness and counterexample theorems. -/

/-- A metadata fetch oracle that always succeeds with fixed metadata. -/
def sampleFetch : String → Option FetchedDetail := fun _ =>
  some ⟨some "t", some "snip", some "5", [("Subject", "su"), ("From", "fr")]⟩

/-- A metadata fetch oracle that fails exactly on the id `bad`. -/
def mixedFetch : String → Option FetchedDetail := fun i =>
  if i = "bad" then none else sampleFetch i

/-- A history page reporting one added and one deleted message, a next page
token and a new history id — a non-terminal page of a multi-page run. -/
def pageWithToken : HistoryRes :=
  ⟨some [⟨some [⟨some "m3"⟩], some [⟨some "m4"⟩]⟩], some "999", some "tok"⟩

/-- A state with no emails and the cursor of user 1 at `100`. -/
def stCursor100 : SyncState := ⟨[], [(1, "100")]⟩

/-- Environment whose history feed returns `pageWithToken` for the page token
`pt` and fails otherwise. -/
def envPage : GmailEnv :=
  { fetch := sampleFetch
    profile := ⟨some "555"⟩
    historyFromId := fun _ => .error .network
    historyFromToken := fun tok => if tok = "pt" then .ok pageWithToken else .error .network
    listMessages := fun _ => .error .network }

/-- Environment whose history listing always fails with `historyExpired`. -/
def envExpired : GmailEnv :=
  { fetch := sampleFetch
    profile := ⟨some "555"⟩
    historyFromId := fun _ => .error .historyExpired
    historyFromToken := fun _ => .error .historyExpired
    listMessages := fun _ => .error .network }

/-- Environment for a fresh user: profile reports history id `777`. -/
def envFresh : GmailEnv :=
  { fetch := sampleFetch
    profile := ⟨some "777"⟩
    historyFromId := fun _ => .error .network
    historyFromToken := fun _ => .error .network
    listMessages := fun _ => .error .network }

/-- Environment whose message listing returns one message `m9` and a next
page token `nt` for the token `x`. -/
def envList : GmailEnv :=
  { fetch := sampleFetch
    profile := ⟨some "555"⟩
    historyFromId := fun _ => .error .network
    historyFromToken := fun _ => .error .network
    listMessages := fun t => if t = "x" then .ok ⟨[⟨some "m9", some "t"⟩], some "nt"⟩ else .error .network }

/-- A store row for user 1 with a given id (also used as the subject) and no
embedding. -/
def mkRow (i : String) : EmailRec := ⟨i, "t", "s", "1", i, "fr", 1, none⟩

/-- A store holding ids `A`, `B`, `C` for user 1. -/
def stABC : SyncState := ⟨[mkRow "A", mkRow "B", mkRow "C"], []⟩

/-- A store holding id `a` for user 1 only. -/
def stUserOne : SyncState := ⟨[mkRow "a"], []⟩

/-- Recognizer for follow-up sync-request events. -/
def isSyncReq : Event → Bool
  | .syncReq _ _ _ _ => true
  | _ => false

/-- A vector of length 1536, as the embedding provider returns on success. -/
def goodVec : List Int := List.replicate 1536 0

/-- An embedding oracle succeeding exactly on the text of the row with id
`a` (whose subject is `a`). -/
def embOracle : String → Option (List Int) := fun s =>
  if s = prepareTextForEmbedding (mkRow "a") then some goodVec else none

/-- A store holding two rows without embeddings for user 1. -/
def stEmb : SyncState := ⟨[mkRow "a", mkRow "bad"], []⟩

/-! Helper lemmas. -/

theorem getCursor_setCursor (st : SyncState) (userId : Nat) (h : String) :
    getCursor (setCursor st userId h) userId = some h := by
  simp [getCursor, setCursor]

theorem store_setCursor (st : SyncState) (userId : Nat) (h : String) :
    (setCursor st userId h).store = st.store := rfl

theorem cursors_applyHistoryAdds (fetch : String → Option FetchedDetail) (st : SyncState)
    (userId : Nat) (ids : List String) :
    (applyHistoryAdds fetch st userId ids).cursors = st.cursors := by
  simp only [applyHistoryAdds]
  split
  · rfl
  · split
    · rfl
    · split <;> rfl

theorem cursors_applyHistoryDeletes (st : SyncState) (userId : Nat) (ids : List String) :
    (applyHistoryDeletes st userId ids).cursors = st.cursors := by
  unfold applyHistoryDeletes
  split <;> rfl

theorem getCursor_eq_of_cursors_eq {st1 st2 : SyncState} (userId : Nat)
    (h : st1.cursors = st2.cursors) : getCursor st1 userId = getCursor st2 userId := by
  simp [getCursor, h]

theorem getCursor_applyHistoryCursor (st : SyncState) (userId : Nat) (historyId : Option String) :
    getCursor (applyHistoryCursor st userId historyId) userId =
      match truthyOpt historyId with
      | some h => some h
      | none => getCursor st userId := by
  unfold applyHistoryCursor
  cases hh : truthyOpt historyId with
  | none => rfl
  | some h => simpa using getCursor_setCursor st userId h

/-! Claim C1. -/

/-- Claim C1 (counterexample): the sync cursor is NOT updated only on the
terminal page.  Concretely, user 1 starts with stored cursor `100`; the
listener processes a history page whose response carries the continuation
token `tok` (so the run is not terminal — a follow-up `SyncRequested` with
that token is emitted), yet the stored cursor has been advanced to the
response history id `999` by processing that very page. -/
theorem cursorAdvancesOnNonterminalPage :
    pageWithToken.nextPageToken = some "tok" ∧
    getCursor stCursor100 1 = some "100" ∧
    (handleSyncOldEmails envPage stCursor100 ⟨1, some "pt", 1, some []⟩).events.contains
      (Event.syncReq 1 (some "tok") 1 (some ["m4"])) = true ∧
    getCursor (handleSyncOldEmails envPage stCursor100 ⟨1, some "pt", 1, some []⟩).state 1
      = some "999" := by
  refine ⟨rfl, rfl, by decide, by decide⟩

/-- Claim C1 (amended): processing a history page stores the page's reported
history id as the cursor whenever the response carries a (truthy) one,
regardless of whether a continuation token is present; a page reporting no
history id leaves the cursor unchanged. -/
theorem historyCursorFollowsReportedId (fetch : String → Option FetchedDetail)
    (st : SyncState) (userId : Nat) (historyRes : HistoryRes) :
    getCursor (processHistoryRecords fetch st userId historyRes).state userId =
      match truthyOpt historyRes.historyId with
      | some h => some h
      | none => getCursor st userId := by
  unfold processHistoryRecords
  rw [getCursor_applyHistoryCursor]
  cases truthyOpt historyRes.historyId with
  | some h => rfl
  | none =>
    exact getCursor_eq_of_cursors_eq userId
      ((cursors_applyHistoryDeletes _ _ _).trans (cursors_applyHistoryAdds _ _ _ _))

/-! Claim C2. -/

/-- Claim C2: for a user with no stored cursor whose profile reports a
(truthy) history id, `syncEmailsWithHistory` stores nothing, deletes nothing,
returns empty added and deleted lists, and persists the profile history id as
the cursor. -/
theorem coldStartSeedsCursorFromProfile (env : GmailEnv) (st : SyncState) (userId : Nat)
    (h : String) (hcur : getCursor st userId = none)
    (hprof : env.profile.historyId = some h) (hne : h ≠ "") :
    ∃ r, syncEmailsWithHistory env st userId = .ok r ∧
      r.newEmailIds = [] ∧ r.deletedEmailIds = [] ∧
      r.state.store = st.store ∧ getCursor r.state userId = some h := by
  refine ⟨⟨setCursor st userId h, [], []⟩, ?_, rfl, rfl,
    store_setCursor st userId h, getCursor_setCursor st userId h⟩
  unfold syncEmailsWithHistory
  rw [hcur]
  simp [truthyOpt, hprof, hne]

/-- Witness for C2: a fresh user (empty state) in an environment whose
profile reports history id `777`. -/
theorem coldStartSeedsCursorFromProfileWitness :
    ∃ r, syncEmailsWithHistory envFresh ⟨[], []⟩ 1 = .ok r ∧
      r.newEmailIds = [] ∧ r.deletedEmailIds = [] ∧
      r.state.store = (⟨[], []⟩ : SyncState).store ∧ getCursor r.state 1 = some "777" :=
  coldStartSeedsCursorFromProfile envFresh ⟨[], []⟩ 1 "777" rfl rfl (by decide)

/-! Claim C4. -/

/-- Claim C4 (code reality at the failing input): user 1 has stale cursor
`100`; the history listing fails with `historyExpired`; the profile reports
history id `555`.  The listener catches the error and merely logs it: the
whole state is unchanged, so the stale cursor `100` is still stored — it is
neither cleared nor re-seeded from the profile. -/
theorem historyExpiredLeavesStaleCursor :
    envExpired.historyFromId (some "100") = .error .historyExpired ∧
    envExpired.profile.historyId = some "555" ∧
    (handleSyncOldEmails envExpired stCursor100 ⟨1, none, 0, none⟩).state = stCursor100 ∧
    getCursor (handleSyncOldEmails envExpired stCursor100 ⟨1, none, 0, none⟩).state 1
      = some "100" := by
  refine ⟨rfl, rfl, by decide, by decide⟩

/-! Lemmas about the store operations and processAndSaveBatch. -/

theorem mem_batchExistingIds {st : SyncState} {messages : List GMessage} {j : String} :
    j ∈ batchExistingIds st messages ↔
      (∃ r ∈ st.store, r.id = j) ∧ j ∈ messages.filterMap (·.id) := by
  simp only [batchExistingIds, List.mem_map, List.mem_filter, decide_eq_true_eq]
  constructor
  · rintro ⟨r, ⟨hr, hin⟩, rfl⟩
    exact ⟨⟨r, hr, rfl⟩, hin⟩
  · rintro ⟨⟨r, hr, rfl⟩, hin⟩
    exact ⟨r, ⟨hr, hin⟩, rfl⟩

theorem filterIds_aux (S : List String) (l : List GMessage) :
    (∀ m ∈ l, m.id ≠ none) →
      (l.filter (fun m => decide ((m.id.getD "") ∉ S))).map (fun m => m.id.getD "")
        = (l.filterMap (·.id)).filter (fun i => decide (i ∉ S)) := by
  induction l with
  | nil => intro _; rfl
  | cons m t ih =>
    intro hids
    have hm : m.id ≠ none := hids m (List.mem_cons_self m t)
    obtain ⟨j, hj⟩ := Option.ne_none_iff_exists'.mp hm
    have ht : ∀ x ∈ t, x.id ≠ none := fun x hx => hids x (List.mem_cons_of_mem m hx)
    have ih2 := ih ht
    by_cases hjS : j ∈ S
    · simpa [List.filter_cons, List.filterMap_cons, hj, hjS] using ih2
    · simpa [List.filter_cons, List.filterMap_cons, hj, hjS] using ih2

theorem batchMessagesToFetch_ids (st : SyncState) (messages : List GMessage)
    (hids : ∀ m ∈ messages, m.id ≠ none) :
    (batchMessagesToFetch st messages).map (fun m => m.id.getD "")
      = (messages.filterMap (·.id)).filter (fun i => decide (i ∉ st.store.map (·.id))) := by
  have hcong : ∀ m ∈ messages, (decide ((m.id.getD "") ∉ batchExistingIds st messages))
      = (decide ((m.id.getD "") ∉ st.store.map (·.id))) := by
    intro m hm
    obtain ⟨j, hj⟩ := Option.ne_none_iff_exists'.mp (hids m hm)
    have hjin : j ∈ messages.filterMap (·.id) := List.mem_filterMap.mpr ⟨m, hm, hj⟩
    simp only [hj, Option.getD_some, decide_eq_decide]
    rw [mem_batchExistingIds]
    simp only [List.mem_map]
    constructor
    · intro h ha
      obtain ⟨r, hr, hrid⟩ := ha
      exact h ⟨⟨r, hr, hrid⟩, hjin⟩
    · intro h hab
      obtain ⟨⟨r, hr, hrid⟩, _⟩ := hab
      exact h ⟨r, hr, hrid⟩
  unfold batchMessagesToFetch
  rw [List.filter_congr hcong]
  exact filterIds_aux _ messages hids

theorem rowOfMessage_id (userId : Nat) (m : GMessage) (d : FetchedDetail) :
    (rowOfMessage userId m d).id = m.id.getD "" := rfl

theorem rowOfMessage_userId (userId : Nat) (m : GMessage) (d : FetchedDetail) :
    (rowOfMessage userId m d).userId = userId := rfl

theorem batchValidEmails_ids (fetch : String → Option FetchedDetail) (st : SyncState)
    (userId : Nat) (messages : List GMessage) :
    (batchValidEmails fetch st userId messages).map (·.id)
      = ((batchMessagesToFetch st messages).map (fun m => m.id.getD "")).filter
          (fun i => (fetch i).isSome) := by
  unfold batchValidEmails
  generalize batchMessagesToFetch st messages = l
  induction l with
  | nil => rfl
  | cons m t ih =>
    cases hf : fetch (m.id.getD "") with
    | none => simp [List.filterMap_cons, List.filter_cons, hf, ih]
    | some d => simp [List.filterMap_cons, List.filter_cons, hf, ih, rowOfMessage_id]

theorem mem_batchValidEmails {fetch : String → Option FetchedDetail} {st : SyncState}
    {userId : Nat} {messages : List GMessage} {e : EmailRec} :
    e ∈ batchValidEmails fetch st userId messages ↔
      ∃ m ∈ batchMessagesToFetch st messages, ∃ d,
        fetch (m.id.getD "") = some d ∧ e = rowOfMessage userId m d := by
  simp only [batchValidEmails, List.mem_filterMap, Option.map_eq_some']
  constructor
  · rintro ⟨m, hm, d, hf, heq⟩
    exact ⟨m, hm, d, hf, heq.symm⟩
  · rintro ⟨m, hm, d, hf, heq⟩
    exact ⟨m, hm, d, hf, heq.symm⟩

theorem batchValidEmails_fresh {fetch : String → Option FetchedDetail} {st : SyncState}
    {userId : Nat} {messages : List GMessage}
    (hids : ∀ m ∈ messages, m.id ≠ none) :
    ∀ e ∈ batchValidEmails fetch st userId messages, e.id ∉ st.store.map (·.id) := by
  intro e he
  obtain ⟨m, hm, d, hf, rfl⟩ := mem_batchValidEmails.mp he
  simp only [batchMessagesToFetch, List.mem_filter, decide_eq_true_eq] at hm
  obtain ⟨hmm, hcond⟩ := hm
  obtain ⟨j, hj⟩ := Option.ne_none_iff_exists'.mp (hids m hmm)
  intro hmem
  apply hcond
  rw [mem_batchExistingIds]
  refine ⟨?_, ?_⟩
  · simpa [rowOfMessage, List.mem_map] using hmem
  · rw [hj, Option.getD_some]
    exact List.mem_filterMap.mpr ⟨m, hmm, hj⟩

theorem mem_saveBatch_of_mem_new {store new : List EmailRec} {e : EmailRec} (he : e ∈ new) :
    e ∈ saveBatch store new := by
  unfold saveBatch
  exact List.mem_append_right _ he

theorem saveBatch_filter_eq (store new : List EmailRec) (p : EmailRec → Bool)
    (hnew : new.filter p = [])
    (hkeep : ∀ r ∈ store, p r = true → (∀ n ∈ new, ¬(n.userId = r.userId ∧ n.id = r.id))) :
    (saveBatch store new).filter p = store.filter p := by
  unfold saveBatch
  rw [List.filter_append, hnew, List.append_nil, List.filter_filter]
  apply List.filter_congr
  intro r hr
  by_cases hp : p r = true
  · simp only [hp, Bool.true_and, decide_eq_true_eq]
    exact hkeep r hr hp
  · have hfalse : p r = false := by revert hp; cases p r <;> simp
    simp [hfalse]

theorem saveBatch_filter_id_eq (store new : List EmailRec) (i : String)
    (hfresh : ∀ n ∈ new, n.id ≠ i) :
    (saveBatch store new).filter (fun r => decide (r.id = i))
      = store.filter (fun r => decide (r.id = i)) := by
  apply saveBatch_filter_eq
  · rw [List.filter_eq_nil_iff]
    intro a ha
    simp [hfresh a ha]
  · intro r hr hp n hn hcontra
    rw [decide_eq_true_eq] at hp
    exact hfresh n hn (hcontra.2.trans hp)

theorem saveBatch_filter_pair_eq (store new : List EmailRec) (u : Nat) (i : String)
    (hfresh : ∀ n ∈ new, ¬(n.userId = u ∧ n.id = i)) :
    (saveBatch store new).filter (fun r => decide (r.userId = u ∧ r.id = i))
      = store.filter (fun r => decide (r.userId = u ∧ r.id = i)) := by
  apply saveBatch_filter_eq
  · rw [List.filter_eq_nil_iff]
    intro a ha
    simpa using hfresh a ha
  · intro r hr hp n hn hcontra
    rw [decide_eq_true_eq] at hp
    exact hfresh n hn ⟨hcontra.1.trans hp.1, hcontra.2.trans hp.2⟩

theorem deleteByIds_filter_pair_eq (store : List EmailRec) (u : Nat) (ids : List String)
    (i : String) (hni : i ∉ ids) :
    (deleteByIds store u ids).filter (fun r => decide (r.userId = u ∧ r.id = i))
      = store.filter (fun r => decide (r.userId = u ∧ r.id = i)) := by
  unfold deleteByIds
  rw [List.filter_filter]
  apply List.filter_congr
  intro r hr
  by_cases hp : r.userId = u ∧ r.id = i
  · simp only [hp.1, hp.2]
    simp [hni]
  · have hfalse : decide (r.userId = u ∧ r.id = i) = false := by simp [hp]
    simp [hfalse]

theorem deleteByIds_not_mem (store : List EmailRec) (u : Nat) (ids : List String)
    (i : String) (hi : i ∈ ids) :
    ∀ r ∈ deleteByIds store u ids, ¬(r.userId = u ∧ r.id = i) := by
  intro r hr hcontra
  unfold deleteByIds at hr
  have h2 := (List.mem_filter.mp hr).2
  rw [decide_eq_true_eq] at h2
  exact h2 ⟨hcontra.1, hcontra.2 ▸ hi⟩

/-! Claim C5. -/

/-- Claim C5: `processAndSaveBatch` is idempotent with respect to repeated
delivery of candidate ids.  Any id already present in the store is neither
returned as newly stored nor has its rows changed in any way: a second call
over already-ingested ids stores nothing new for them and never produces a
duplicate row. -/
theorem batchNeverRestoresPresentId (fetch : String → Option FetchedDetail)
    (st : SyncState) (userId : Nat) (messages : List GMessage) (i : String)
    (hids : ∀ m ∈ messages, m.id ≠ none)
    (hpresent : i ∈ st.store.map (·.id)) :
    i ∉ (processAndSaveBatch fetch st userId messages).savedIds ∧
    (processAndSaveBatch fetch st userId messages).state.store.filter
        (fun r => decide (r.id = i))
      = st.store.filter (fun r => decide (r.id = i)) := by
  unfold processAndSaveBatch
  split
  · exact ⟨by simp, rfl⟩
  · split
    · exact ⟨by simp, rfl⟩
    · split
      · exact ⟨by simp, rfl⟩
      · constructor
        · intro hmem
          obtain ⟨e, he, hei⟩ := List.mem_map.mp hmem
          exact batchValidEmails_fresh hids e he (hei ▸ hpresent)
        · apply saveBatch_filter_id_eq
          intro n hn hni
          exact batchValidEmails_fresh hids n hn (hni ▸ hpresent)

/-- Witness for C5: the store holds id `a` for user 1; a call that delivers
`a` again (plus a new id `b`) does not return `a` and leaves the rows with
id `a` unchanged. -/
theorem batchNeverRestoresPresentIdWitness :
    "a" ∉ (processAndSaveBatch sampleFetch stUserOne 1
        [⟨some "a", some "t"⟩, ⟨some "b", some "t"⟩]).savedIds ∧
    (processAndSaveBatch sampleFetch stUserOne 1
        [⟨some "a", some "t"⟩, ⟨some "b", some "t"⟩]).state.store.filter
        (fun r => decide (r.id = "a"))
      = stUserOne.store.filter (fun r => decide (r.id = "a")) :=
  batchNeverRestoresPresentId sampleFetch stUserOne 1
    [⟨some "a", some "t"⟩, ⟨some "b", some "t"⟩] "a" (by decide) (by decide)

/-! Claim C6. -/

/-- Claim C6 (counterexample): the pre-existence check of
`processAndSaveBatch` is NOT scoped to the given user.  The store holds id
`a` only for user 1 (no rows for user 2), yet a call for user 2 with
candidate `a` attempts no remote fetch and stores nothing for user 2 —
the claim predicts the fetch set `[a]`. -/
theorem crossUserIdNotFetched :
    stUserOne.store.filter (fun r => decide (r.userId = 2)) = [] ∧
    (["a"].filter (fun i =>
        decide (i ∉ (stUserOne.store.filter (fun r => decide (r.userId = 2))).map (·.id))))
      = ["a"] ∧
    (processAndSaveBatch sampleFetch stUserOne 2 [⟨some "a", some "t"⟩]).attemptedIds = [] ∧
    (processAndSaveBatch sampleFetch stUserOne 2 [⟨some "a", some "t"⟩]).savedIds = [] := by
  refine ⟨rfl, by decide, by decide, by decide⟩

/-- Claim C6 (amended): the set of ids for which a remote metadata fetch is
attempted equals exactly the candidate ids minus the ids already stored for
ANY user — the pre-existence check is id-only, so an id stored under a
different user is skipped, not fetched. -/
theorem batchFetchesExactlyGloballyAbsentIds (fetch : String → Option FetchedDetail)
    (st : SyncState) (userId : Nat) (messages : List GMessage)
    (hids : ∀ m ∈ messages, m.id ≠ none) :
    (processAndSaveBatch fetch st userId messages).attemptedIds
      = (messages.filterMap (·.id)).filter (fun i => decide (i ∉ st.store.map (·.id))) := by
  unfold processAndSaveBatch
  split
  · rename_i hempty
    rw [List.isEmpty_iff] at hempty
    subst hempty
    rfl
  · split
    · rename_i hmtf
      rw [List.isEmpty_iff] at hmtf
      rw [← batchMessagesToFetch_ids st messages hids, hmtf]
      rfl
    · split
      · exact batchMessagesToFetch_ids st messages hids
      · exact batchMessagesToFetch_ids st messages hids

/-- Witness for the amended C6: with `a` stored (for user 1) and candidates
`a`, `b`, the attempted fetch set is the candidates minus the globally
stored ids. -/
theorem batchFetchesExactlyGloballyAbsentIdsWitness :
    (processAndSaveBatch sampleFetch stUserOne 2
        [⟨some "a", some "t"⟩, ⟨some "b", some "t"⟩]).attemptedIds
      = (([⟨some "a", some "t"⟩, ⟨some "b", some "t"⟩] : List GMessage).filterMap (·.id)).filter
          (fun i => decide (i ∉ stUserOne.store.map (·.id))) :=
  batchFetchesExactlyGloballyAbsentIds sampleFetch stUserOne 2
    [⟨some "a", some "t"⟩, ⟨some "b", some "t"⟩] (by decide)

/-! Claim C9. -/

/-- Claim C9: per-id failures inside `processAndSaveBatch` are absorbed: the
returned list is exactly the attempted ids whose fetch succeeded (siblings
of a failing id are not aborted), a failing id gets no stored row, and every
returned id has a row persisted for this user. -/
theorem batchAbsorbsPerIdFailures (fetch : String → Option FetchedDetail)
    (st : SyncState) (userId : Nat) (messages : List GMessage) :
    (processAndSaveBatch fetch st userId messages).savedIds
      = (processAndSaveBatch fetch st userId messages).attemptedIds.filter
          (fun i => (fetch i).isSome) ∧
    (∀ i, fetch i = none →
      (processAndSaveBatch fetch st userId messages).state.store.filter
          (fun r => decide (r.id = i))
        = st.store.filter (fun r => decide (r.id = i))) ∧
    (∀ i ∈ (processAndSaveBatch fetch st userId messages).savedIds,
      ∃ r ∈ (processAndSaveBatch fetch st userId messages).state.store,
        r.userId = userId ∧ r.id = i) := by
  unfold processAndSaveBatch
  split
  · exact ⟨rfl, fun i _ => rfl, by simp⟩
  · split
    · exact ⟨rfl, fun i _ => rfl, by simp⟩
    · split
      · rename_i hvalid
        rw [List.isEmpty_iff] at hvalid
        refine ⟨?_, fun i _ => rfl, by simp⟩
        have h := batchValidEmails_ids fetch st userId messages
        rw [hvalid] at h
        exact h
      · refine ⟨batchValidEmails_ids fetch st userId messages, ?_, ?_⟩
        · intro i hf
          apply saveBatch_filter_id_eq
          intro n hn hni
          obtain ⟨m, _, d, hfd, rfl⟩ := mem_batchValidEmails.mp hn
          have : (rowOfMessage userId m d).id = m.id.getD "" := rfl
          rw [this] at hni
          rw [hni] at hfd
          exact Option.some_ne_none d (hf ▸ hfd.symm)
        · intro i hmem
          obtain ⟨e, he, hei⟩ := List.mem_map.mp hmem
          refine ⟨e, mem_saveBatch_of_mem_new he, ?_, hei⟩
          obtain ⟨m, _, d, _, rfl⟩ := mem_batchValidEmails.mp he
          rfl

/-- Witness for C9: the fetch fails exactly on id `bad`; delivering `good`
and `bad` returns exactly the successful ids, stores no row with id `bad`,
and persists a row for the returned id. -/
theorem batchAbsorbsPerIdFailuresWitness :
    (processAndSaveBatch mixedFetch ⟨[], []⟩ 1
        [⟨some "good", some "t"⟩, ⟨some "bad", some "t"⟩]).savedIds
      = (processAndSaveBatch mixedFetch ⟨[], []⟩ 1
          [⟨some "good", some "t"⟩, ⟨some "bad", some "t"⟩]).attemptedIds.filter
          (fun i => (mixedFetch i).isSome) ∧
    (processAndSaveBatch mixedFetch ⟨[], []⟩ 1
        [⟨some "good", some "t"⟩, ⟨some "bad", some "t"⟩]).state.store.filter
        (fun r => decide (r.id = "bad"))
      = (⟨[], []⟩ : SyncState).store.filter (fun r => decide (r.id = "bad")) := by
  have h := batchAbsorbsPerIdFailures mixedFetch ⟨[], []⟩ 1
    [⟨some "good", some "t"⟩, ⟨some "bad", some "t"⟩]
  exact ⟨h.1, h.2.1 "bad" (by decide)⟩

/-! Claim C7. -/

theorem mem_setDedup {l : List String} {a : String} : a ∈ setDedup l ↔ a ∈ l := by
  induction l with
  | nil => simp [setDedup]
  | cons b t ih =>
    by_cases hab : a = b <;> simp [setDedup, List.mem_filter, hab, ih]

theorem mem_userStoredIds {st : SyncState} {userId : Nat} {i : String} :
    i ∈ userStoredIds st userId ↔ ∃ r ∈ st.store, r.userId = userId ∧ r.id = i := by
  simp only [userStoredIds, List.mem_map, List.mem_filter, decide_eq_true_eq]
  constructor
  · rintro ⟨r, ⟨hr, hu⟩, rfl⟩
    exact ⟨r, hr, hu, rfl⟩
  · rintro ⟨r, hr, hu, rfl⟩
    exact ⟨r, ⟨hr, hu⟩, rfl⟩

theorem mem_sdDeletedIds {st : SyncState} {userId : Nat} {messages : List GMessage} {i : String} :
    i ∈ sdDeletedIds st userId messages ↔
      i ∈ userStoredIds st userId ∧ i ∉ messages.filterMap (·.id) := by
  simp [sdDeletedIds, List.mem_filter, mem_setDedup]

theorem sdValidEmails_spec {fetch : String → Option FetchedDetail} {st : SyncState}
    {userId : Nat} {messages : List GMessage} :
    ∀ e ∈ sdValidEmails fetch st userId messages,
      e.userId = userId ∧ e.id ∉ userStoredIds st userId := by
  intro e he
  unfold sdValidEmails at he
  obtain ⟨m, hm, heq⟩ := List.mem_filterMap.mp he
  obtain ⟨d, hf, hrow⟩ := Option.map_eq_some'.mp heq
  subst hrow
  have hcond := (List.mem_filter.mp hm).2
  rw [decide_eq_true_eq] at hcond
  exact ⟨rowOfMessage_userId userId m d, by rw [rowOfMessage_id]; exact hcond⟩

theorem sdStateAfterSave_filter_pair (fetch : String → Option FetchedDetail) (st : SyncState)
    (userId : Nat) (messages : List GMessage) (i : String)
    (hid : i ∈ userStoredIds st userId) :
    (sdStateAfterSave fetch st userId messages).store.filter
        (fun r => decide (r.userId = userId ∧ r.id = i))
      = st.store.filter (fun r => decide (r.userId = userId ∧ r.id = i)) := by
  unfold sdStateAfterSave
  split
  · rfl
  · apply saveBatch_filter_pair_eq
    intro n hn hcontra
    have : n.id ∈ userStoredIds st userId := by rw [hcontra.2]; exact hid
    exact (sdValidEmails_spec n hn).2 this

/-- Claim C7: diff-mode reconciliation deletes exactly the set difference of
local minus remote ids: the returned deleted list contains exactly the ids
stored for this user and absent from the remote set; every such id has no
remaining row for this user afterwards; and each locally stored id present
in the remote set keeps its rows untouched. -/
theorem diffDeletionExact (fetch : String → Option FetchedDetail) (st : SyncState)
    (userId : Nat) (messages : List GMessage) :
    (∀ i, i ∈ (syncEmailsWithDeletion fetch st userId messages).deletedEmailIds ↔
      ((∃ r ∈ st.store, r.userId = userId ∧ r.id = i) ∧ i ∉ messages.filterMap (·.id))) ∧
    (∀ i, (∃ r ∈ st.store, r.userId = userId ∧ r.id = i) → i ∉ messages.filterMap (·.id) →
      ∀ r ∈ (syncEmailsWithDeletion fetch st userId messages).state.store,
        ¬(r.userId = userId ∧ r.id = i)) ∧
    (∀ i, (∃ r ∈ st.store, r.userId = userId ∧ r.id = i) → i ∈ messages.filterMap (·.id) →
      (syncEmailsWithDeletion fetch st userId messages).state.store.filter
          (fun r => decide (r.userId = userId ∧ r.id = i))
        = st.store.filter (fun r => decide (r.userId = userId ∧ r.id = i))) := by
  refine ⟨?_, ?_, ?_⟩
  · intro i
    show i ∈ sdDeletedIds st userId messages ↔ _
    rw [mem_sdDeletedIds, mem_userStoredIds]
  · intro i hex hnotin r hr hcontra
    have hid : i ∈ sdDeletedIds st userId messages :=
      mem_sdDeletedIds.mpr ⟨mem_userStoredIds.mpr hex, hnotin⟩
    have hne : ¬(sdDeletedIds st userId messages).isEmpty = true := by
      rw [List.isEmpty_iff]
      intro h
      rw [h] at hid
      exact absurd hid (List.not_mem_nil i)
    unfold syncEmailsWithDeletion at hr
    rw [if_neg hne] at hr
    exact deleteByIds_not_mem _ _ _ i hid r hr hcontra
  · intro i hex hin
    have hid : i ∈ userStoredIds st userId := mem_userStoredIds.mpr hex
    have hnd : i ∉ sdDeletedIds st userId messages := by
      intro hmem
      exact (mem_sdDeletedIds.mp hmem).2 hin
    unfold syncEmailsWithDeletion
    by_cases hdel : (sdDeletedIds st userId messages).isEmpty = true
    · rw [if_pos hdel]
      exact sdStateAfterSave_filter_pair fetch st userId messages i hid
    · rw [if_neg hdel]
      show (deleteByIds (sdStateAfterSave fetch st userId messages).store userId
          (sdDeletedIds st userId messages)).filter _ = _
      rw [deleteByIds_filter_pair_eq _ _ _ _ hnd]
      exact sdStateAfterSave_filter_pair fetch st userId messages i hid

/-- Witness for C7: local ids `A`, `B`, `C` for user 1 against the complete
remote set `A`, `C`: exactly `B` is reported deleted and loses its row, and
the rows of `A` are untouched. -/
theorem diffDeletionExactWitness :
    ("B" ∈ (syncEmailsWithDeletion sampleFetch stABC 1
        [⟨some "A", some "t"⟩, ⟨some "C", some "t"⟩]).deletedEmailIds) ∧
    (∀ r ∈ (syncEmailsWithDeletion sampleFetch stABC 1
        [⟨some "A", some "t"⟩, ⟨some "C", some "t"⟩]).state.store,
      ¬(r.userId = 1 ∧ r.id = "B")) ∧
    ((syncEmailsWithDeletion sampleFetch stABC 1
        [⟨some "A", some "t"⟩, ⟨some "C", some "t"⟩]).state.store.filter
        (fun r => decide (r.userId = 1 ∧ r.id = "A"))
      = stABC.store.filter (fun r => decide (r.userId = 1 ∧ r.id = "A"))) := by
  have h := diffDeletionExact sampleFetch stABC 1 [⟨some "A", some "t"⟩, ⟨some "C", some "t"⟩]
  refine ⟨?_, ?_, ?_⟩
  · exact (h.1 "B").mpr ⟨⟨mkRow "B", by decide, rfl, rfl⟩, by decide⟩
  · exact h.2.1 "B" ⟨mkRow "B", by decide, rfl, rfl⟩ (by decide)
  · exact h.2.2 "A" ⟨mkRow "A", by decide, rfl, rfl⟩ (by decide)

/-! Claim C8. -/

/-- Claim C8: the legacy list-pagination path is bounded.  A request with
page counter 11 (exceeding `MAX_PAGES = 10`) issues no remote listing call,
changes no state and emits no events; a request within the bound whose
listing succeeds and reports a continuation token emits exactly one
follow-up sync request with the counter incremented by one. -/
theorem legacyPageBound (env : GmailEnv) (st : SyncState) (userId : Nat) :
    (∀ tok del, handleSyncOldEmails env st ⟨userId, tok, 11, del⟩ = ⟨st, [], []⟩) ∧
    (∀ pageCount t listRes nextTok, 2 ≤ pageCount → pageCount ≤ MAX_PAGES → t ≠ "" →
      env.listMessages t = .ok listRes → listRes.nextPageToken = some nextTok → nextTok ≠ "" →
      ((handleSyncOldEmails env st ⟨userId, some t, pageCount, none⟩).events.filter isSyncReq)
        = [Event.syncReq userId (some nextTok) (pageCount + 1) none]) := by
  constructor
  · intro tok del
    unfold handleSyncOldEmails
    dsimp only
    rw [if_neg (show ¬(11 = 0) by omega)]
    rw [if_neg (show ¬((11 = 1) ∧ (tok.getD "") ≠ "") from fun h => absurd h.1 (by omega))]
    rw [if_pos (Or.inr (show 11 > MAX_PAGES by rw [MAX_PAGES]; omega))]
  · intro pageCount t listRes nextTok h2 h10 ht hlist hnext hnt
    unfold handleSyncOldEmails
    dsimp only
    rw [if_neg (show ¬(pageCount = 0) by omega)]
    rw [if_neg (show ¬((pageCount = 1) ∧ ((some t : Option String).getD "") ≠ "")
      from fun h => absurd h.1 (by omega))]
    rw [if_neg (show ¬(((some t : Option String).getD "") = "" ∨ pageCount > MAX_PAGES) from by
      rintro (h | h)
      · exact ht h
      · have h10a : pageCount ≤ 10 := h10
        have ha : pageCount > 10 := h
        omega)]
    rw [show ((some t : Option String).getD "") = t from rfl, hlist]
    dsimp only
    rw [hnext]
    rw [show truthyOpt (some nextTok) = some nextTok from by simp [truthyOpt, hnt]]
    dsimp only
    rw [List.filter_append, List.filter_append]
    split <;> simp [isSyncReq]

/-- Witness for C8: in a concrete environment whose listing for token `x`
returns one message and continuation token `nt`, the page-11 request is a
no-op and the page-2 request emits exactly one follow-up with counter 3. -/
theorem legacyPageBoundWitness :
    (handleSyncOldEmails envList stCursor100 ⟨1, some "x", 11, none⟩
      = ⟨stCursor100, [], []⟩) ∧
    ((handleSyncOldEmails envList stCursor100 ⟨1, some "x", 2, none⟩).events.filter isSyncReq
      = [Event.syncReq 1 (some "nt") 3 none]) := by
  have h := legacyPageBound envList stCursor100 1
  exact ⟨h.1 (some "x") none,
    h.2 2 "x" ⟨[⟨some "m9", some "t"⟩], some "nt"⟩ "nt" (by omega) (by decide)
      (by decide) rfl rfl (by decide)⟩

/-! Claim C10. -/

theorem embeddingSelection_subset (st : SyncState) (userId : Nat) (emailIds : List String) :
    ∀ e ∈ embeddingSelection st userId emailIds, e ∈ st.store := by
  intro e he
  exact List.mem_of_mem_filter (List.take_subset _ _ he)

theorem mem_embValidRows {embed : String → Option (List Int)} {st : SyncState}
    {userId : Nat} {emailIds : List String} {n : EmailRec} :
    n ∈ embValidRows embed st userId emailIds ↔
      ∃ x ∈ embeddingSelection st userId emailIds, ∃ v,
        embed (prepareTextForEmbedding x) = some v ∧ v.length = 1536 ∧
        n = { x with embedding := some v } := by
  unfold embValidRows embUpdatedRows
  constructor
  · intro hn
    have h1 := List.mem_filter.mp hn
    obtain ⟨o, ho, hid⟩ := List.mem_filterMap.mp h1.1
    obtain ⟨x, hx, hfx⟩ := List.mem_map.mp ho
    have ho2 : o = some n := hid
    rw [ho2] at hfx
    obtain ⟨v, hv, hgv⟩ := Option.map_eq_some'.mp hfx
    have hne := h1.2
    rw [decide_eq_true_eq] at hne
    by_cases hlen : v.length = 1536
    · refine ⟨x, hx, v, hv, hlen, ?_⟩
      rw [← hgv]
      simp [hlen]
    · exfalso
      apply hne
      rw [← hgv]
      simp [hlen]
  · rintro ⟨x, hx, v, hv, hlen, rfl⟩
    apply List.mem_filter.mpr
    constructor
    · apply List.mem_filterMap.mpr
      refine ⟨some { x with embedding := some v }, ?_, rfl⟩
      apply List.mem_map.mpr
      refine ⟨x, hx, ?_⟩
      rw [hv]
      simp [hlen]
    · simp

/-- Claim C10 (counterexample): when the batch selection is empty the
function returns the empty list, not the input minus the (empty) selection.
With an empty store, `generateEmbeddingsForEmails(1, [a])` selects nothing
and returns `[]`, while the claim predicts `[a]`. -/
theorem embeddingEmptySelectionReturnsEmpty :
    embeddingSelection ⟨[], []⟩ 1 ["a"] = [] ∧
    (generateEmbeddingsForEmails (fun _ => none) ⟨[], []⟩ 1 ["a"]).2 = [] ∧
    (["a"].filter (fun i => decide (i ∉ (embeddingSelection ⟨[], []⟩ 1 ["a"]).map (·.id))))
      = ["a"] := by
  refine ⟨rfl, rfl, by decide⟩

/-- Claim C10 (amended): at most `BATCH_SIZE = 10` rows (those of the given
ids belonging to the user that lack an embedding) are selected; an embedding
is persisted for a selected row only when the generated vector has length
exactly 1536, otherwise the row is left unchanged; and the returned list is
the input ids minus the ids of the selected rows — except that when the
selection is empty the function returns the empty list. -/
theorem embeddingBatchRule (embed : String → Option (List Int)) (st : SyncState)
    (userId : Nat) (emailIds : List String)
    (hkeys : (st.store.map (fun r => (r.userId, r.id))).Nodup) :
    (embeddingSelection st userId emailIds).length ≤ BATCH_SIZE ∧
    ((generateEmbeddingsForEmails embed st userId emailIds).2
      = if (embeddingSelection st userId emailIds).isEmpty then ([] : List String)
        else emailIds.filter
          (fun i => decide (i ∉ (embeddingSelection st userId emailIds).map (·.id)))) ∧
    (∀ e ∈ embeddingSelection st userId emailIds, ∀ v,
      embed (prepareTextForEmbedding e) = some v → v.length = 1536 →
      { e with embedding := some v } ∈ (generateEmbeddingsForEmails embed st userId emailIds).1.store) ∧
    (∀ e ∈ embeddingSelection st userId emailIds,
      (∀ v, embed (prepareTextForEmbedding e) = some v → v.length ≠ 1536) →
      e ∈ (generateEmbeddingsForEmails embed st userId emailIds).1.store) := by
  refine ⟨?_, ?_, ?_, ?_⟩
  · unfold embeddingSelection
    exact List.length_take_le _ _
  · by_cases hsel : (embeddingSelection st userId emailIds).isEmpty = true
    · simp [generateEmbeddingsForEmails, hsel]
    · simp [generateEmbeddingsForEmails, hsel]
  · intro e he v hv hlen
    have hne : ¬(embeddingSelection st userId emailIds).isEmpty = true := by
      rw [List.isEmpty_iff]
      intro h
      rw [h] at he
      exact absurd he (List.not_mem_nil e)
    have hnmem : { e with embedding := some v } ∈ embValidRows embed st userId emailIds :=
      mem_embValidRows.mpr ⟨e, he, v, hv, hlen, rfl⟩
    have hvne : ¬(embValidRows embed st userId emailIds).isEmpty = true := by
      rw [List.isEmpty_iff]
      intro h
      rw [h] at hnmem
      exact absurd hnmem (List.not_mem_nil _)
    unfold generateEmbeddingsForEmails
    rw [if_neg hne]
    show _ ∈ (embStateAfterSave embed st userId emailIds).store
    unfold embStateAfterSave
    rw [if_neg hvne]
    exact mem_saveBatch_of_mem_new hnmem
  · intro e he hbad
    have hne : ¬(embeddingSelection st userId emailIds).isEmpty = true := by
      rw [List.isEmpty_iff]
      intro h
      rw [h] at he
      exact absurd he (List.not_mem_nil e)
    unfold generateEmbeddingsForEmails
    rw [if_neg hne]
    show e ∈ (embStateAfterSave embed st userId emailIds).store
    unfold embStateAfterSave
    split
    · exact embeddingSelection_subset st userId emailIds e he
    · unfold saveBatch
      apply List.mem_append_left
      apply List.mem_filter.mpr
      refine ⟨embeddingSelection_subset st userId emailIds e he, ?_⟩
      rw [decide_eq_true_eq]
      intro n hn hc
      obtain ⟨x, hx, v, hv, hlen, rfl⟩ := mem_embValidRows.mp hn
      have h1 : x.userId = e.userId := hc.1
      have h2 : x.id = e.id := hc.2
      have hxe : x = e := by
        apply List.inj_on_of_nodup_map hkeys
          (embeddingSelection_subset st userId emailIds x hx)
          (embeddingSelection_subset st userId emailIds e he)
        simp [h1, h2]
      rw [hxe] at hv
      exact hbad v hv hlen

/-- Witness for the amended C10: user 1 has rows `a` and `bad` without
embeddings; the provider succeeds with a 1536-vector on `a` and fails on
`bad`.  Both rows are selected, `a` gets its embedding persisted, `bad` is
unchanged, and the returned remainder is exactly the non-selected id `z`. -/
theorem embeddingBatchRuleWitness :
    (embeddingSelection stEmb 1 ["a", "bad", "z"]).length ≤ BATCH_SIZE ∧
    ({ mkRow "a" with embedding := some goodVec }
        ∈ (generateEmbeddingsForEmails embOracle stEmb 1 ["a", "bad", "z"]).1.store) ∧
    (mkRow "bad" ∈ (generateEmbeddingsForEmails embOracle stEmb 1 ["a", "bad", "z"]).1.store) ∧
    (generateEmbeddingsForEmails embOracle stEmb 1 ["a", "bad", "z"]).2 = ["z"] := by
  have h := embeddingBatchRule embOracle stEmb 1 ["a", "bad", "z"] (by decide)
  refine ⟨h.1, ?_, ?_, ?_⟩
  · refine h.2.2.1 (mkRow "a") (by decide) goodVec ?_ ?_
    · unfold embOracle
      rw [if_pos rfl]
    · unfold goodVec
      exact List.length_replicate 1536 0
  · refine h.2.2.2 (mkRow "bad") (by decide) ?_
    intro v hv
    unfold embOracle at hv
    rw [if_neg (by decide)] at hv
    exact absurd hv (by simp)
  · rw [h.2.1]
    decide

end GmailSync
